import Mathlib

/-!
Shallow embedding of the size/quality targeting engine of
`src/components/converter.tsx` (Pixify-Convert).

The engine drives an opaque lossy encoder (`canvas.toBlob("image/webp", q)`)
and an opaque 2d-context resampler.  Both are modelled as an environment of
oracles: `encode` returns the byte size of the compressed blob (or `none`
when the platform refuses, exactly as `toBlob` may hand back `null`), and
`ctx2d` tells whether `getContext("2d")` succeeds on a given canvas.

Qualities, scales and kilobyte counts are exact rationals; blob sizes are
naturals (bytes).  Every routine also returns the list of primitive events
it performed (encode probes, context acquisitions, upscale-routine entries)
so that claims about which probes run can be stated.
-/

namespace Pixify

/-- A canvas: pixel `content` is an opaque identifier (drawing a source into
a fresh canvas of new dimensions keeps the content identifier and changes the
dimensions), plus integer pixel dimensions. -/
structure Canvas where
  content : Nat
  width : Nat
  height : Nat
deriving DecidableEq

/-- Models `Math.floor` on the nonnegative width/height products used by the
code,
landing in `Nat` (all scales probed by the engine are positive). -/
def floorToNat (x : ℚ) : Nat := (⌊x⌋).toNat

/-- The scaled canvas built by `document.createElement("canvas")` with
`width = Math.max(1, Math.floor(src.width * s))` and likewise for height,
then `drawImage(src, 0, 0, w, h)`. -/
def scaledCanvas (src : Canvas) (s : ℚ) : Canvas :=
  { content := src.content
  , width := max 1 (floorToNat ((src.width : ℚ) * s))
  , height := max 1 (floorToNat ((src.height : ℚ) * s)) }

/-- Primitive events recorded during a conversion: an encode probe
(`canvas.toBlob` at a quality, with its outcome), a `getContext("2d")`
acquisition, and entry into `upscaleToTargetWithFixedQuality`. -/
inductive Ev where
  | enc (c : Canvas) (q : ℚ) (r : Option Nat)
  | ctx2d (c : Canvas) (ok : Bool)
  | up (c : Canvas) (t : ℚ) (q : ℚ)
deriving DecidableEq

/-- The platform oracles: the opaque WEBP encoder (byte size or failure) and
2d-context availability. -/
structure Env where
  encode : Canvas → ℚ → Option Nat
  ctx2d : Canvas → Bool

/-- Result of `findQualityForTargetKB`: the blob (represented by its byte
size) and the quality that produced it. -/
structure QRes where
  size : Nat
  q : ℚ
deriving DecidableEq

/-- Result of the scale-carrying routines: blob byte size, quality, scale. -/
structure SRes where
  size : Nat
  q : ℚ
  scale : ℚ
deriving DecidableEq

/-- Loop body of `findQualityForTargetKB` (source lines 89–108): fuel-indexed
binary search on quality.  At each step probe `mid = (low+high)/2`; a `null`
blob breaks out returning the best so far; a size under target records the
probe as best and lifts `low` to `min(0.999, mid+0.02)`; otherwise `high`
drops to `max(minQ, mid-0.02)`; after the update the loop breaks once
`|low - high| < 0.005`. -/
def findQGo (env : Env) (canvas : Canvas) (targetKB minQ : ℚ) :
    Nat → ℚ → ℚ → Option QRes → Option QRes × List Ev
  | 0, _, _, best => (best, [])
  | i+1, low, high, best =>
    let mid := (low + high) / 2
    match env.encode canvas mid with
    | none => (best, [Ev.enc canvas mid none])
    | some n =>
      let kb : ℚ := (n : ℚ) / 1024
      let low' := if kb ≤ targetKB then min (999/1000) (mid + 2/100) else low
      let high' := if kb ≤ targetKB then high else max minQ (mid - 2/100)
      let best' := if kb ≤ targetKB then some ⟨n, mid⟩ else best
      if |low' - high'| < 5/1000 then (best', [Ev.enc canvas mid (some n)])
      else
        let r := findQGo env canvas targetKB minQ i low' high' best'
        (r.1, Ev.enc canvas mid (some n) :: r.2)

/-- The function `findQualityForTargetKB` (source lines 81–112): binary
search quality for
a target size on a given canvas.  Returns the best `{blob, q}` found, or
`none` if no probe ever landed under the target. -/
def findQualityForTargetKB (env : Env) (canvas : Canvas) (targetKB : ℚ)
    (minQ : ℚ := 1/100) (maxQ : ℚ := 999/1000) (iterations : Nat := 12) :
    Option QRes × List Ev :=
  findQGo env canvas targetKB minQ iterations minQ maxQ none

/-- Loop body of `upscaleToTargetWithFixedQuality` (source lines 127–153),
with `tolKB = 2`: binary search on a scale in `[1, maxScale]` at a fixed
quality.  A missing context or `null` blob breaks returning the best so far.
A probe under target becomes the new best and lifts `low` to
`min(maxScale, mid+0.05)`; a probe over target drops `high` to
`max(1, mid-0.05)`.  The loop breaks when a probe lands within `tolKB` of
the target from below (before its `low` update, which the break makes
irrelevant), or when the updated bounds satisfy `high - low < 0.02`; the
source's two `break` sites are rendered as this single exit condition over
the shared updated bounds, which is equal branch by branch. -/
def upGo (env : Env) (src : Canvas) (t q maxScale : ℚ) :
    Nat → ℚ → ℚ → Option SRes → Option SRes × List Ev
  | 0, _, _, best => (best, [])
  | i+1, low, high, best =>
    let mid := (low + high) / 2
    let scaled := scaledCanvas src mid
    if env.ctx2d scaled then
      match env.encode scaled q with
      | none => (best, [Ev.ctx2d scaled true, Ev.enc scaled q none])
      | some n =>
        let kb : ℚ := (n : ℚ) / 1024
        let best' := if kb ≤ t then some (⟨n, q, mid⟩ : SRes) else best
        let low' := if kb ≤ t then min maxScale (mid + 5/100) else low
        let high' := if kb ≤ t then high else max 1 (mid - 5/100)
        if (kb ≤ t ∧ |t - kb| ≤ 2) ∨ high' - low' < 2/100 then
          (best', [Ev.ctx2d scaled true, Ev.enc scaled q (some n)])
        else
          let r := upGo env src t q maxScale i low' high' best'
          (r.1, Ev.ctx2d scaled true :: Ev.enc scaled q (some n) :: r.2)
    else (best, [Ev.ctx2d scaled false])

/-- The function `upscaleToTargetWithFixedQuality` (source lines 115–157):
maximize scale
at a fixed quality while staying under the target, 12 iterations, default
`maxScale = 6`.  Its entry is recorded as an `Ev.up` event. -/
def upscaleToTargetWithFixedQuality (env : Env) (src : Canvas) (t q : ℚ)
    (maxScale : ℚ := 6) : Option SRes × List Ev :=
  let r := upGo env src t q maxScale 12 1 maxScale none
  (r.1, Ev.up src t q :: r.2)

/-- The fixed descending scale ladder of the downscale loop
(source lines 183–185). -/
def scalesLadder : List ℚ :=
  [19/20, 9/10, 17/20, 4/5, 3/4, 7/10, 13/20, 3/5, 11/20, 1/2,
   9/20, 2/5, 7/20, 3/10, 1/4, 1/5, 3/20, 3/25, 1/10]

/-- The downscale loop of `convertToTargetSize` (source lines 182–215).
At each ladder scale: a missing context skips the scale; otherwise run
`findQualityForTargetKB` on the scaled canvas and return its result
immediately on success; on failure probe quality 0.35 and keep the
strictly-smallest such fallback blob.  After the ladder: return the
tracked fallback, else probe the original canvas at quality 0.35, else
throw `"Failed to create WEBP"`. -/
def sweep (env : Env) (src : Canvas) (t : ℚ) :
    List ℚ → Option SRes → Except String SRes × List Ev
  | [], best =>
    match best with
    | some b => (Except.ok b, [])
    | none =>
      match env.encode src (35/100) with
      | some n => (Except.ok ⟨n, 35/100, 1⟩, [Ev.enc src (35/100) (some n)])
      | none => (Except.error "Failed to create WEBP", [Ev.enc src (35/100) none])
  | s :: rest, best =>
    let scaled := scaledCanvas src s
    if env.ctx2d scaled then
      let att := findQualityForTargetKB env scaled t
      match att.1 with
      | some a => (Except.ok ⟨a.size, a.q, s⟩, Ev.ctx2d scaled true :: att.2)
      | none =>
        let fb := env.encode scaled (35/100)
        let best' := match fb with
          | some n => match best with
            | none => some (⟨n, 35/100, s⟩ : SRes)
            | some b => if n < b.size then some ⟨n, 35/100, s⟩ else some b
          | none => best
        let r := sweep env src t rest best'
        (r.1, Ev.ctx2d scaled true :: (att.2 ++ Ev.enc scaled (35/100) fb :: r.2))
    else
      let r := sweep env src t rest best
      (r.1, Ev.ctx2d scaled false :: r.2)

/-- The function `convertToTargetSize` (source lines 160–218): direct
quality search
first; when the direct result is under the cap by more than `tolKB = 2`
at quality ≥ 0.95 and upscaling is allowed, try the upscale search at
`min(0.999, max(0.95, q))`; otherwise return the direct result at scale 1.
When the direct search fails, fall into the downscale loop. -/
def convertToTargetSize (env : Env) (src : Canvas) (t : ℚ) (allowUp : Bool) :
    Except String SRes × List Ev :=
  let direct := findQualityForTargetKB env src t
  match direct.1 with
  | some d =>
    let underBy := t - (d.size : ℚ) / 1024
    if allowUp = true ∧ underBy > 2 ∧ d.q ≥ 95/100 then
      let upc := upscaleToTargetWithFixedQuality env src t
        (min (999/1000) (max (95/100) d.q))
      match upc.1 with
      | some u => (Except.ok u, direct.2 ++ upc.2)
      | none => (Except.ok ⟨d.size, d.q, 1⟩, direct.2 ++ upc.2)
    else (Except.ok ⟨d.size, d.q, 1⟩, direct.2)
  | none =>
    let sw := sweep env src t scalesLadder none
    (sw.1, direct.2 ++ sw.2)

/-- The scale binary search of `fitToSizeWithFixedQuality` (source lines
239–265): scale in `[0.1, 1]`, 8 iterations, fixed quality.  Missing
context or `null` blob breaks returning the best so far; success lifts
`low` to `min(0.999, mid+0.05)`, failure drops `high` to
`max(0.1, mid-0.05)`; the loop breaks once `|high - low| < 0.02`. -/
def fitBinGo (env : Env) (src : Canvas) (t q : ℚ) :
    Nat → ℚ → ℚ → Option SRes → Option SRes × List Ev
  | 0, _, _, best => (best, [])
  | i+1, low, high, best =>
    let mid := (low + high) / 2
    let scaled := scaledCanvas src mid
    if env.ctx2d scaled then
      match env.encode scaled q with
      | none => (best, [Ev.ctx2d scaled true, Ev.enc scaled q none])
      | some n =>
        let kb : ℚ := (n : ℚ) / 1024
        let low' := if kb ≤ t then min (999/1000) (mid + 5/100) else low
        let high' := if kb ≤ t then high else max (1/10) (mid - 5/100)
        let best' := if kb ≤ t then some (⟨n, q, mid⟩ : SRes) else best
        if |high' - low'| < 2/100 then
          (best', [Ev.ctx2d scaled true, Ev.enc scaled q (some n)])
        else
          let r := fitBinGo env src t q i low' high' best'
          (r.1, Ev.ctx2d scaled true :: Ev.enc scaled q (some n) :: r.2)
    else (best, [Ev.ctx2d scaled false])

/-- The coarse fallback sweep of `fitToSizeWithFixedQuality` (source lines
269–284): scales 0.25, 0.2, 0.15, 0.12, 0.1 at the fixed quality; a missing
context skips the scale; a successful blob strictly smaller than the current
fallback replaces it. -/
def fitFallback (env : Env) (src : Canvas) (q : ℚ) :
    List ℚ → Option SRes → Option SRes × List Ev
  | [], fb => (fb, [])
  | s :: rest, fb =>
    let scaled := scaledCanvas src s
    if env.ctx2d scaled then
      let b := env.encode scaled q
      let fb' := match b with
        | some n => match fb with
          | none => some (⟨n, q, s⟩ : SRes)
          | some f => if n < f.size then some ⟨n, q, s⟩ else some f
        | none => fb
      let r := fitFallback env src q rest fb'
      (r.1, Ev.ctx2d scaled true :: Ev.enc scaled q b :: r.2)
    else
      let r := fitFallback env src q rest fb
      (r.1, Ev.ctx2d scaled false :: r.2)

/-- The function `fitToSizeWithFixedQuality` (source lines 221–291): probe
the original
canvas at the fixed quality (a `null` blob throws `"Failed to create
WEBP"`).  Under target: optionally delegate to the upscale search, else
return the scale-1 attempt.  Over target: binary-search scale downward, then
the coarse fallback sweep, then return the original attempt even though it
exceeds the cap. -/
def fitToSizeWithFixedQuality (env : Env) (src : Canvas) (t q : ℚ)
    (allowUp : Bool) : Except String SRes × List Ev :=
  match env.encode src q with
  | none => (Except.error "Failed to create WEBP", [Ev.enc src q none])
  | some n =>
    if (n : ℚ) / 1024 ≤ t then
      if allowUp then
        let upc := upscaleToTargetWithFixedQuality env src t q
        match upc.1 with
        | some u => (Except.ok u, Ev.enc src q (some n) :: upc.2)
        | none => (Except.ok ⟨n, q, 1⟩, Ev.enc src q (some n) :: upc.2)
      else (Except.ok ⟨n, q, 1⟩, [Ev.enc src q (some n)])
    else
      let bin := fitBinGo env src t q 8 (1/10) 1 none
      match bin.1 with
      | some b => (Except.ok b, Ev.enc src q (some n) :: bin.2)
      | none =>
        let fbl := fitFallback env src q [1/4, 1/5, 3/20, 3/25, 1/10] none
        match fbl.1 with
        | some f => (Except.ok f, Ev.enc src q (some n) :: (bin.2 ++ fbl.2))
        | none => (Except.ok ⟨n, q, 1⟩, Ev.enc src q (some n) :: (bin.2 ++ fbl.2))

/-- The four conversion modes of the UI (source line 37). -/
inductive Mode where
  | auto
  | quality
  | size
  | both
deriving DecidableEq

/-- The quality clamp `Math.min(Math.max(qualityPct / 100, 0.01), 1)`
(source lines 326 and 330). -/
def clampQ (qualityPct : ℚ) : ℚ := min (max (qualityPct / 100) (1/100)) 1

/-- The conversion core of `convertOne` (source lines 318–343): mode
dispatch.  `auto` encodes once at quality 0.9; `quality` encodes once at
the clamped user quality; `both` runs `fitToSizeWithFixedQuality` at the
clamped quality and cap `max(1, maxSizeKB)` with upscaling forced on;
`size` runs `convertToTargetSize` at cap `max(1, maxSizeKB)` honouring the
user's `allowUpscale` toggle.  A `null` blob from the single-probe modes
throws `"Failed to convert to WEBP"`. -/
def convertOne (env : Env) (canvas : Canvas) (mode : Mode) (qualityPct : ℚ)
    (maxSizeKB : ℚ) (allowUpscale : Bool) : Except String SRes × List Ev :=
  match mode with
  | Mode.auto =>
    match env.encode canvas (9/10) with
    | some n => (Except.ok ⟨n, 9/10, 1⟩, [Ev.enc canvas (9/10) (some n)])
    | none => (Except.error "Failed to convert to WEBP", [Ev.enc canvas (9/10) none])
  | Mode.quality =>
    let chosenQ := clampQ qualityPct
    match env.encode canvas chosenQ with
    | some n => (Except.ok ⟨n, chosenQ, 1⟩, [Ev.enc canvas chosenQ (some n)])
    | none => (Except.error "Failed to convert to WEBP", [Ev.enc canvas chosenQ none])
  | Mode.both =>
    let target := max 1 maxSizeKB
    let chosenQ := clampQ qualityPct
    fitToSizeWithFixedQuality env canvas target chosenQ true
  | Mode.size =>
    let target := max 1 maxSizeKB
    convertToTargetSize env canvas target allowUpscale

/-- The first ladder scale at which the quality search succeeds, together
with the search's result there (scales whose context acquisition fails run
no quality search, exactly as in the sweep). -/
def firstHit (env : Env) (src : Canvas) (t : ℚ) : List ℚ → Option (ℚ × QRes)
  | [] => none
  | s :: rest =>
    let scaled := scaledCanvas src s
    if env.ctx2d scaled then
      match (findQualityForTargetKB env scaled t).1 with
      | some a => some (s, a)
      | none => firstHit env src t rest
    else firstHit env src t rest

/-- The graceful-fallback tracking of the downscale loop in isolation: the
strictly-smallest quality-0.35 probe across the ladder scales (first, i.e.
largest, scale wins ties), starting from accumulator `acc`. -/
def bestFallback (env : Env) (src : Canvas) : List ℚ → Option SRes → Option SRes
  | [], acc => acc
  | s :: rest, acc =>
    let scaled := scaledCanvas src s
    if env.ctx2d scaled then
      let fb := env.encode scaled (35/100)
      let acc' := match fb with
        | some n => match acc with
          | none => some (⟨n, 35/100, s⟩ : SRes)
          | some b => if n < b.size then some ⟨n, 35/100, s⟩ else some b
        | none => acc
      bestFallback env src rest acc'
    else bestFallback env src rest acc

/-- Whether an event is an encode probe at a quality other than `q`
(used negated: `encQIs q` holds of events that are not such probes). -/
def encQIs (q : ℚ) : Ev → Bool
  | Ev.enc _ q' _ => decide (q' = q)
  | _ => true

/-- Whether a conversion outcome, when successful, carries quality `q`. -/
def resQIs (q : ℚ) : Except String SRes → Bool
  | Except.ok r => decide (r.q = q)
  | Except.error _ => true

/-- Whether an event is an entry into the upscale routine. -/
def Ev.isUp : Ev → Bool
  | Ev.up _ _ _ => true
  | _ => false

/-- A trace with no upscale-routine entry. -/
def noUp (l : List Ev) : Bool := l.all fun e => !e.isUp

/-- A small concrete source canvas used by the concrete instances below. -/
def c0 : Canvas := ⟨0, 8, 8⟩

/-- Encoder whose size is a monotone step function of quality: 1 KB at
quality ≤ 0.01 and 10000 KB above.  Context always available. -/
def envStep : Env :=
  { encode := fun _ q => if q ≤ 1/100 then some 1024 else some 10240000
  , ctx2d := fun _ => true }

/-- Encoder that fails exactly at quality 1009/2000 (the first midpoint of
the default quality search) and yields a 512-byte blob everywhere else. -/
def envMidFail : Env :=
  { encode := fun _ q => if q = 1009/2000 then none else some 512
  , ctx2d := fun _ => true }

/-- Encoder returning a constant 299 KB blob. -/
def envFlat299 : Env :=
  { encode := fun _ _ => some 306176
  , ctx2d := fun _ => true }

/-- Encoder returning a constant 9 KB blob. -/
def envFlat9 : Env :=
  { encode := fun _ _ => some 9216
  , ctx2d := fun _ => true }

/-- Encoder returning a constant 1 KB blob. -/
def envFlat1 : Env :=
  { encode := fun _ _ => some 1024
  , ctx2d := fun _ => true }

/-- Encoder that always fails; context always available. -/
def envAllFail : Env :=
  { encode := fun _ _ => none
  , ctx2d := fun _ => true }

/-- Encoder producing 2048 KB on the full-size 8-wide canvas and, on smaller
canvases, 512 bytes at quality 1009/2000 and failure elsewhere: the direct
quality search fails but the first ladder scale succeeds. -/
def envLadderHit : Env :=
  { encode := fun c q =>
      if c.width = 8 then some 2097152
      else if q = 1009/2000 then some 512 else none
  , ctx2d := fun _ => true }

/-- Environment whose 2d-context acquisition always fails. -/
def envCtxOff : Env :=
  { encode := fun _ _ => some 1024
  , ctx2d := fun _ => false }

/-! ## Lemmas about the quality binary search -/

/-- Any `some` result of the quality-search loop is under the target,
provided the incoming best already is. -/
theorem findQGo_sound (env : Env) (c : Canvas) (t minQ : ℚ) :
    ∀ (i : Nat) (low high : ℚ) (best : Option QRes),
      (∀ b, best = some b → (b.size : ℚ) / 1024 ≤ t) →
      ∀ b, (findQGo env c t minQ i low high best).1 = some b →
        (b.size : ℚ) / 1024 ≤ t := by
  intro i
  induction i with
  | zero => intro low high best hbest b hb; exact hbest b hb
  | succ i ih =>
    intro low high best hbest b hb
    rw [findQGo] at hb
    rcases henc : env.encode c ((low + high) / 2) with _ | n
    · rw [henc] at hb
      exact hbest b hb
    · rw [henc] at hb
      simp only at hb
      by_cases hkb : ((n : ℚ) / 1024) ≤ t
      · simp only [if_pos hkb] at hb
        split at hb
        · cases hb
          exact hkb
        · refine ih _ _ _ ?_ b hb
          intro b' hb'
          cases hb'
          exact hkb
      · simp only [if_neg hkb] at hb
        split at hb
        · exact hbest b hb
        · exact ih _ _ _ hbest b hb

/-- The quality-search loop never loses an already-recorded best: a non-`none`
accumulator yields a non-`none` result. -/
theorem findQGo_ne_none (env : Env) (c : Canvas) (t minQ : ℚ) :
    ∀ (i : Nat) (low high : ℚ) (best : Option QRes),
      best ≠ none → (findQGo env c t minQ i low high best).1 ≠ none := by
  intro i
  induction i with
  | zero => intro low high best hbest; exact hbest
  | succ i ih =>
    intro low high best hbest
    rw [findQGo]
    rcases henc : env.encode c ((low + high) / 2) with _ | n
    · exact hbest
    · simp only
      by_cases hkb : ((n : ℚ) / 1024) ≤ t
      · simp only [if_pos hkb]
        split
        · simp
        · exact ih _ _ _ (by simp)
      · simp only [if_neg hkb]
        split
        · exact hbest
        · exact ih _ _ _ hbest

/-- C1, amended.  Soundness half: any non-`none` result of the quality
search has encoded size at most `targetKB`.  Completeness half: whenever the
very first probe, at quality `(minQ + maxQ) / 2`, encodes under the target,
the search returns a non-`none` result.  (The original floor hypothesis —
`targetKB` at least the size achievable at quality `minQ`, encoder monotone —
does not suffice; see the counterexample.) -/
theorem findQuality_sound_and_firstProbe_complete
    (env : Env) (c : Canvas) (t minQ maxQ : ℚ) (iterations : Nat) :
    (∀ b, (findQualityForTargetKB env c t minQ maxQ iterations).1 = some b →
      (b.size : ℚ) / 1024 ≤ t) ∧
    (∀ n, 1 ≤ iterations → env.encode c ((minQ + maxQ) / 2) = some n →
      (n : ℚ) / 1024 ≤ t →
      (findQualityForTargetKB env c t minQ maxQ iterations).1 ≠ none) := by
  constructor
  · intro b hb
    exact findQGo_sound env c t minQ iterations minQ maxQ none (by simp) b hb
  · intro n hiter henc hkb
    obtain ⟨i, rfl⟩ : ∃ i, iterations = i + 1 :=
      ⟨iterations - 1, (Nat.succ_pred_eq_of_pos hiter).symm⟩
    rw [findQualityForTargetKB, findQGo, henc]
    simp only [if_pos hkb]
    split
    · simp
    · exact findQGo_ne_none env c t minQ i _ _ _ (by simp)

/-- Witness for the amended C1: with the constant 1 KB encoder and target
10 KB, the first probe is under target, so the search succeeds. -/
theorem findQuality_firstProbe_witness :
    ((1024 : ℚ) / 1024 ≤ 10) ∧
    (findQualityForTargetKB envFlat1 c0 10 (1/100) (999/1000) 1).1 ≠ none :=
  ⟨by norm_num,
   (findQuality_sound_and_firstProbe_complete envFlat1 c0 10 (1/100) (999/1000) 1).2
     1024 (by norm_num) rfl (by norm_num)⟩

/-- The step encoder `envStep` is monotone: a blob produced at a lower
quality is never larger than one produced at a higher quality. -/
theorem envStep_encode_monotone (c c' : Canvas) (q q' : ℚ) (h : q ≤ q')
    (n n' : Nat) (hn : envStep.encode c q = some n)
    (hn' : envStep.encode c' q' = some n') : n ≤ n' := by
  simp only [envStep] at hn hn'
  by_cases hq : q ≤ 1/100
  · rw [if_pos hq] at hn
    cases hn
    by_cases hq' : q' ≤ 1/100
    · rw [if_pos hq'] at hn'
      cases hn'
      exact le_refl _
    · rw [if_neg hq'] at hn'
      cases hn'
      norm_num
  · have hq' : ¬ q' ≤ 1/100 := fun hle => hq (h.trans hle)
    rw [if_neg hq] at hn
    rw [if_neg hq'] at hn'
    cases hn
    cases hn'
    exact le_refl _

/-- Counterexample to C1 as stated: the step encoder is monotone and its
quality-0.01 blob (1 KB) is within the 1 KB target, yet the default quality
search returns `none` — its step-adjusted bounds collapse onto `minQ`
without ever probing it. -/
theorem findQuality_floor_counterexample :
    (findQualityForTargetKB envStep c0 1).1 = none ∧
    envStep.encode c0 (1/100) = some 1024 ∧ ((1024 : ℚ) / 1024 ≤ 1) := by
  refine ⟨?_, ?_, by norm_num⟩
  · norm_num [findQualityForTargetKB, findQGo, envStep, abs_of_nonneg,
      abs_of_nonpos, min_def, max_def]
  · norm_num [envStep]

/-! ## Lemmas about the upscale search -/

/-- Any `some` result of the upscale loop is under the target, provided the
incoming best already is. -/
theorem upGo_sound (env : Env) (src : Canvas) (t q ms : ℚ) :
    ∀ (i : Nat) (low high : ℚ) (best : Option SRes),
      (∀ b, best = some b → (b.size : ℚ) / 1024 ≤ t) →
      ∀ r, (upGo env src t q ms i low high best).1 = some r →
        (r.size : ℚ) / 1024 ≤ t := by
  intro i
  induction i with
  | zero => intro low high best hbest r hr; exact hbest r hr
  | succ i ih =>
    intro low high best hbest r hr
    rw [upGo] at hr
    by_cases hctx : env.ctx2d (scaledCanvas src ((low + high) / 2)) = true
    · rw [if_pos hctx] at hr
      rcases henc : env.encode (scaledCanvas src ((low + high) / 2)) q with _ | n
      · rw [henc] at hr
        exact hbest r hr
      · rw [henc] at hr
        simp only at hr
        by_cases hkb : ((n : ℚ) / 1024) ≤ t
        · simp only [if_pos hkb] at hr
          split at hr
          · cases hr; exact hkb
          · refine ih _ _ _ ?_ r hr
            intro b' hb'; cases hb'; exact hkb
        · simp only [if_neg hkb] at hr
          split at hr
          · exact hbest r hr
          · exact ih _ _ _ hbest r hr
    · rw [if_neg hctx] at hr
      exact hbest r hr

/-- C3: whenever the upscale search returns a result, that result's encoded
size is at most `targetKB`. -/
theorem upscale_result_le_target (env : Env) (src : Canvas) (t q ms : ℚ)
    (r : SRes) (h : (upscaleToTargetWithFixedQuality env src t q ms).1 = some r) :
    (r.size : ℚ) / 1024 ≤ t :=
  upGo_sound env src t q ms 12 1 ms none (by simp) r h

/-- Witness for C3: the constant 9 KB encoder against a 10 KB target makes
the upscale search stop within tolerance at the first probed scale 3.5. -/
theorem upscale_result_le_target_witness : ((9216 : Nat) : ℚ) / 1024 ≤ 10 :=
  upscale_result_le_target envFlat9 c0 10 (9/10) 6 ⟨9216, 9/10, 7/2⟩ (by
    norm_num [upscaleToTargetWithFixedQuality, upGo, envFlat9, abs_of_nonneg,
      abs_of_nonpos, min_def, max_def])

/-! ## Lemmas about the downscale sweep -/

/-- When some ladder scale hits, the sweep returns that first hit, whatever
fallback has accumulated so far. -/
theorem sweep_firstHit_some (env : Env) (src : Canvas) (t : ℚ) :
    ∀ (l : List ℚ) (best : Option SRes) (s : ℚ) (a : QRes),
      firstHit env src t l = some (s, a) →
      (sweep env src t l best).1 = Except.ok ⟨a.size, a.q, s⟩ := by
  intro l
  induction l with
  | nil => intro best s a h; simp [firstHit] at h
  | cons s0 rest ih =>
    intro best s a h
    rw [firstHit] at h
    rw [sweep]
    by_cases hctx : env.ctx2d (scaledCanvas src s0) = true
    · rw [if_pos hctx] at h
      rw [if_pos hctx]
      simp only at h ⊢
      rcases hatt : (findQualityForTargetKB env (scaledCanvas src s0) t).1 with _ | a0
      · rw [hatt] at h
        simp only at h ⊢
        exact ih _ s a h
      · rw [hatt] at h
        simp only [Option.some.injEq, Prod.mk.injEq] at h
        obtain ⟨rfl, rfl⟩ := h
        rfl
    · rw [if_neg hctx] at h
      rw [if_neg hctx]
      exact ih _ s a h

/-- When no ladder scale hits, the sweep ends exactly as the extracted
fallback fold prescribes: best tracked 0.35-probe, else the original canvas
at 0.35, else the fatal error. -/
theorem sweep_exhausted (env : Env) (src : Canvas) (t : ℚ) :
    ∀ (l : List ℚ) (best : Option SRes),
      firstHit env src t l = none →
      (sweep env src t l best).1 =
        (match bestFallback env src l best with
         | some b => Except.ok b
         | none =>
           match env.encode src (35/100) with
           | some n => Except.ok ⟨n, 35/100, 1⟩
           | none => Except.error "Failed to create WEBP") := by
  intro l
  induction l with
  | nil =>
    intro best _
    rcases best with _ | b
    · rcases henc : env.encode src (35/100) with _ | n <;>
        simp [sweep, bestFallback, henc]
    · simp [sweep, bestFallback]
  | cons s0 rest ih =>
    intro best h
    rw [firstHit] at h
    rw [sweep, bestFallback]
    by_cases hctx : env.ctx2d (scaledCanvas src s0) = true
    · simp only [if_pos hctx] at h ⊢
      rcases hatt : (findQualityForTargetKB env (scaledCanvas src s0) t).1 with _ | a0
      · rw [hatt] at h
        simp only at h ⊢
        exact ih _ h
      · rw [hatt] at h
        simp at h
    · simp only [if_neg hctx] at h ⊢
      exact ih _ h

/-- Folding the fallback tracker from an existing candidate always yields a
candidate, no larger in bytes, whose quality is the incoming one or 0.35. -/
theorem bestFallback_some (env : Env) (src : Canvas) :
    ∀ (l : List ℚ) (b : SRes), ∃ b', bestFallback env src l (some b) = some b' ∧
      b'.size ≤ b.size ∧ (b'.q = b.q ∨ b'.q = 35/100) := by
  intro l
  induction l with
  | nil => intro b; exact ⟨b, rfl, le_refl _, Or.inl rfl⟩
  | cons s rest ih =>
    intro b
    rw [bestFallback]
    by_cases hctx : env.ctx2d (scaledCanvas src s) = true
    · rw [if_pos hctx]
      simp only
      rcases henc : env.encode (scaledCanvas src s) (35/100) with _ | n
      · exact ih b
      · simp only
        by_cases hlt : n < b.size
        · rw [if_pos hlt]
          obtain ⟨b', h1, h2, h3⟩ := ih ⟨n, 35/100, s⟩
          refine ⟨b', h1, le_trans h2 (Nat.le_of_lt hlt), Or.inr ?_⟩
          rcases h3 with h3 | h3 <;> exact h3
        · rw [if_neg hlt]
          exact ih b
    · rw [if_neg hctx]
      exact ih b

/-- The fallback tracker's final candidate is at most as large as any
successful 0.35 probe at any ladder scale. -/
theorem bestFallback_min (env : Env) (src : Canvas) :
    ∀ (l : List ℚ) (acc : Option SRes) (s : ℚ) (n : Nat),
      s ∈ l → env.ctx2d (scaledCanvas src s) = true →
      env.encode (scaledCanvas src s) (35/100) = some n →
      ∃ b, bestFallback env src l acc = some b ∧ b.size ≤ n := by
  intro l
  induction l with
  | nil => intro acc s n hmem _ _; cases hmem
  | cons s0 rest ih =>
    intro acc s n hmem hctx henc
    rcases List.mem_cons.mp hmem with rfl | hmem'
    · rw [bestFallback, if_pos hctx]
      simp only
      rw [henc]
      rcases acc with _ | a
      · simp only
        obtain ⟨b', h1, h2, _⟩ := bestFallback_some env src rest ⟨n, 35/100, s⟩
        exact ⟨b', h1, h2⟩
      · simp only
        by_cases hlt : n < a.size
        · rw [if_pos hlt]
          obtain ⟨b', h1, h2, _⟩ := bestFallback_some env src rest ⟨n, 35/100, s⟩
          exact ⟨b', h1, h2⟩
        · rw [if_neg hlt]
          obtain ⟨b', h1, h2, _⟩ := bestFallback_some env src rest a
          exact ⟨b', h1, le_trans h2 (Nat.le_of_not_lt hlt)⟩
    · rw [bestFallback]
      by_cases hctx0 : env.ctx2d (scaledCanvas src s0) = true
      · rw [if_pos hctx0]
        simp only
        exact ih _ s n hmem' hctx henc
      · rw [if_neg hctx0]
        exact ih _ s n hmem' hctx henc

/-- Every candidate the fallback tracker can produce from an accumulator of
0.35-quality candidates has quality 0.35. -/
theorem bestFallback_quality (env : Env) (src : Canvas) :
    ∀ (l : List ℚ) (acc : Option SRes),
      (∀ a, acc = some a → a.q = 35/100) →
      ∀ b, bestFallback env src l acc = some b → b.q = 35/100 := by
  intro l
  induction l with
  | nil => intro acc hacc b hb; exact hacc b hb
  | cons s rest ih =>
    intro acc hacc b hb
    rw [bestFallback] at hb
    by_cases hctx : env.ctx2d (scaledCanvas src s) = true
    · rw [if_pos hctx] at hb
      simp only at hb
      rcases henc : env.encode (scaledCanvas src s) (35/100) with _ | n
      · rw [henc] at hb
        exact ih _ hacc b hb
      · rw [henc] at hb
        rcases acc with _ | a
        · simp only at hb
          refine ih _ ?_ b hb
          intro a' ha'
          cases ha'
          rfl
        · simp only at hb
          by_cases hlt : n < a.size

          · rw [if_pos hlt] at hb
            refine ih _ ?_ b hb
            intro a' ha'
            cases ha'
            rfl
          · rw [if_neg hlt] at hb
            refine ih _ ?_ b hb
            intro a' ha'
            cases ha'
            exact hacc a rfl
    · rw [if_neg hctx] at hb
      exact ih _ hacc b hb

/-- C2: when the direct quality search fails and no ladder scale hits, the
downscale path still settles: it returns the tracked graceful fallback — the
0.35-quality probe of smallest byte size across the ladder, no larger than
any successful 0.35 probe — else re-encodes the original raster at 0.35, and
signals the fatal error only when that last resort also fails. -/
theorem downscale_sweep_total (env : Env) (src : Canvas) (t : ℚ) (allowUp : Bool)
    (h1 : (findQualityForTargetKB env src t).1 = none)
    (h2 : firstHit env src t scalesLadder = none) :
    ((convertToTargetSize env src t allowUp).1 =
      (match bestFallback env src scalesLadder none with
       | some b => Except.ok b
       | none =>
         match env.encode src (35/100) with
         | some n => Except.ok ⟨n, 35/100, 1⟩
         | none => Except.error "Failed to create WEBP")) ∧
    ∀ s n, s ∈ scalesLadder → env.ctx2d (scaledCanvas src s) = true →
      env.encode (scaledCanvas src s) (35/100) = some n →
      ∃ b, bestFallback env src scalesLadder none = some b ∧
        b.size ≤ n ∧ b.q = 35/100 := by
  constructor
  · simp only [convertToTargetSize, h1]
    exact sweep_exhausted env src t scalesLadder none h2
  · intro s n hs hctx henc
    obtain ⟨b, hb, hsize⟩ := bestFallback_min env src scalesLadder none s n hs hctx henc
    exact ⟨b, hb, hsize, bestFallback_quality env src scalesLadder none (by simp) b hb⟩

/-- With the always-failing encoder the quality search returns `none`. -/
theorem findQuality_allFail (c : Canvas) (t minQ maxQ : ℚ) (iters : Nat) :
    (findQualityForTargetKB envAllFail c t minQ maxQ iters).1 = none := by
  cases iters <;> simp [findQualityForTargetKB, findQGo, envAllFail]

/-- With the always-failing encoder no ladder scale ever hits. -/
theorem firstHit_allFail (src : Canvas) (t : ℚ) :
    ∀ l, firstHit envAllFail src t l = none := by
  intro l
  induction l with
  | nil => rfl
  | cons s rest ih =>
    rw [firstHit]
    have hc : envAllFail.ctx2d (scaledCanvas src s) = true := rfl
    simp [hc, findQuality_allFail, ih]

/-- With the always-failing encoder the fallback tracker never grows. -/
theorem bestFallback_allFail (src : Canvas) :
    ∀ l acc, bestFallback envAllFail src l acc = acc := by
  intro l
  induction l with
  | nil => intro acc; rfl
  | cons s rest ih =>
    intro acc
    rw [bestFallback]
    have hc : envAllFail.ctx2d (scaledCanvas src s) = true := rfl
    have he : envAllFail.encode (scaledCanvas src s) (35/100) = none := rfl
    simp [hc, he, ih]

/-- Witness for C2: when every encode fails, the downscale path runs the
whole ladder, finds no fallback, fails the last resort, and reports the
fatal error. -/
theorem downscale_sweep_total_witness :
    (convertToTargetSize envAllFail c0 5 false).1 =
      Except.error "Failed to create WEBP" := by
  have h := (downscale_sweep_total envAllFail c0 5 false
    (findQuality_allFail c0 5 (1/100) (999/1000) 12)
    (firstHit_allFail c0 5 scalesLadder)).1
  rw [h, bestFallback_allFail]
  rfl

/-- C8: the downscale ladder is strictly descending from 0.95 to 0.10, and
whenever the direct quality search fails but some ladder scale hits, the
sweep returns the first (largest) hitting scale's result. -/
theorem ladder_descending_and_first_hit_preferred :
    (List.Chain' (fun a b => b < a) scalesLadder ∧
      scalesLadder.head? = some (19/20) ∧ scalesLadder.getLast? = some (1/10)) ∧
    ∀ (env : Env) (src : Canvas) (t : ℚ) (allowUp : Bool) (s : ℚ) (a : QRes),
      (findQualityForTargetKB env src t).1 = none →
      firstHit env src t scalesLadder = some (s, a) →
      (convertToTargetSize env src t allowUp).1 = Except.ok ⟨a.size, a.q, s⟩ := by
  constructor
  · refine ⟨?_, by norm_num [scalesLadder], by norm_num [scalesLadder]⟩
    norm_num [scalesLadder, List.chain'_cons]
  · intro env src t allowUp s a h1 h2
    simp only [convertToTargetSize, h1]
    exact sweep_firstHit_some env src t scalesLadder none s a h2

/-- A ladder head whose context is available and whose quality search hits
is the sweep's first hit. -/
theorem firstHit_cons_hit (env : Env) (src : Canvas) (t : ℚ) (s : ℚ)
    (rest : List ℚ) (a : QRes) (hctx : env.ctx2d (scaledCanvas src s) = true)
    (hatt : (findQualityForTargetKB env (scaledCanvas src s) t).1 = some a) :
    firstHit env src t (s :: rest) = some (s, a) := by
  rw [firstHit]
  simp only [if_pos hctx]
  rw [hatt]

/-- The 0.95-scaled 8×8 canvas is 7 pixels wide. -/
theorem scaled95_width : (scaledCanvas c0 (19/20)).width = 7 := by
  have h : (⌊((8 : ℚ) * (19/20))⌋ : ℤ) = 7 := by
    rw [Int.floor_eq_iff]
    norm_num
  simp [scaledCanvas, c0, floorToNat, h]

/-- With `envLadderHit`, the direct quality search on the full canvas fails. -/
theorem direct_ladderHit : (findQualityForTargetKB envLadderHit c0 1).1 = none := by
  norm_num [findQualityForTargetKB, findQGo, envLadderHit, c0, abs_of_nonneg,
    abs_of_nonpos, min_def, max_def]

/-- With `envLadderHit`, the quality search at ladder scale 0.95 returns the
512-byte blob probed at the first midpoint quality. -/
theorem att_ladderHit :
    (findQualityForTargetKB envLadderHit (scaledCanvas c0 (19/20)) 1).1 =
      some ⟨512, 1009/2000⟩ := by
  norm_num [findQualityForTargetKB, findQGo, envLadderHit, scaled95_width,
    abs_of_nonneg, abs_of_nonpos, min_def, max_def]

/-- Witness for C8: with `envLadderHit` the sweep returns the very first
ladder scale 0.95 with the quality found there. -/
theorem ladder_first_hit_witness :
    (convertToTargetSize envLadderHit c0 1 false).1 =
      Except.ok ⟨512, 1009/2000, 19/20⟩ :=
  (ladder_descending_and_first_hit_preferred.2 envLadderHit c0 1 false (19/20)
    ⟨512, 1009/2000⟩ direct_ladderHit
    (by
      rw [show scalesLadder = (19/20) ::
        [9/10, 17/20, 4/5, 3/4, 7/10, 13/20, 3/5, 11/20, 1/2,
         9/20, 2/5, 7/20, 3/10, 1/4, 1/5, 3/20, 3/25, 1/10] from rfl]
      exact firstHit_cons_hit envLadderHit c0 1 (19/20) _ ⟨512, 1009/2000⟩ rfl
        att_ladderHit))

/-! ## Probe-failure behaviour, mode dispatch -/

/-- C4, amended.  A failed probe never raises an error and never discards
the best already found.  In the binary-search loops — the quality search
(`findQGo`), the upscale search (`upGo`) and the fixed-quality fit's scale
search (`fitBinGo`) — a failed encode, or a missing context where the loop
acquires one, ends that loop early returning the best candidate found so
far (rather than continuing with the remaining bounds, as the claim
stated).  The ladder sweeps — the downscale sweep and the fit's coarse
fallback sweep — skip the failed candidate and continue with the remaining
scales: a missing context skips the scale, and a failed fallback encode
leaves the tracked fallback unchanged. -/
theorem probe_failure_local (env : Env) (c : Canvas) (t minQ q ms : ℚ)
    (i : Nat) (low high : ℚ) (best : Option QRes) (ob : Option SRes) (s : ℚ)
    (rest : List ℚ) (sb fb : Option SRes) :
    (env.encode c ((low + high) / 2) = none →
      (findQGo env c t minQ (i+1) low high best).1 = best) ∧
    (env.ctx2d (scaledCanvas c ((low + high) / 2)) = false →
      (upGo env c t q ms (i+1) low high ob).1 = ob) ∧
    (env.ctx2d (scaledCanvas c ((low + high) / 2)) = true →
      env.encode (scaledCanvas c ((low + high) / 2)) q = none →
      (upGo env c t q ms (i+1) low high ob).1 = ob) ∧
    (env.ctx2d (scaledCanvas c ((low + high) / 2)) = false →
      (fitBinGo env c t q (i+1) low high ob).1 = ob) ∧
    (env.ctx2d (scaledCanvas c ((low + high) / 2)) = true →
      env.encode (scaledCanvas c ((low + high) / 2)) q = none →
      (fitBinGo env c t q (i+1) low high ob).1 = ob) ∧
    (env.ctx2d (scaledCanvas c s) = false →
      (sweep env c t (s :: rest) sb).1 = (sweep env c t rest sb).1) ∧
    (env.ctx2d (scaledCanvas c s) = true →
      (findQualityForTargetKB env (scaledCanvas c s) t).1 = none →
      env.encode (scaledCanvas c s) (35/100) = none →
      (sweep env c t (s :: rest) sb).1 = (sweep env c t rest sb).1) ∧
    (env.ctx2d (scaledCanvas c s) = false →
      (fitFallback env c q (s :: rest) fb).1 = (fitFallback env c q rest fb).1) ∧
    (env.ctx2d (scaledCanvas c s) = true →
      env.encode (scaledCanvas c s) q = none →
      (fitFallback env c q (s :: rest) fb).1 = (fitFallback env c q rest fb).1) := by
  refine ⟨?_, ?_, ?_, ?_, ?_, ?_, ?_, ?_, ?_⟩
  · intro h
    rw [findQGo, h]
  · intro h
    rw [upGo]
    simp [h]
  · intro hctx henc
    rw [upGo]
    simp only [if_pos hctx]
    rw [henc]
  · intro h
    rw [fitBinGo]
    simp [h]
  · intro hctx henc
    rw [fitBinGo]
    simp only [if_pos hctx]
    rw [henc]
  · intro h
    rw [sweep]
    simp [h]
  · intro hctx hatt henc
    rw [sweep]
    simp only [if_pos hctx]
    rw [hatt]
    simp only
    rw [henc]
  · intro h
    rw [fitFallback]
    simp [h]
  · intro hctx henc
    rw [fitFallback]
    simp only [if_pos hctx]
    rw [henc]

/-- Counterexample to C4 as stated: an encoder failing only at the first
midpoint quality 0.5045 makes the whole quality search return `none`, even
though the untried quality 0.5 (inside the remaining bounds) encodes to
512 bytes, well under the 1 KB target: the failed probe aborts the search
instead of continuing with the remaining bounds. -/
theorem probe_failure_counterexample :
    (findQualityForTargetKB envMidFail c0 1).1 = none ∧
    envMidFail.encode c0 (1009/2000) = none ∧
    envMidFail.encode c0 (1/2) = some 512 ∧ ((512 : ℚ) / 1024 ≤ 1) := by
  refine ⟨?_, ?_, ?_, by norm_num⟩
  · norm_num [findQualityForTargetKB, findQGo, envMidFail]
  · norm_num [envMidFail]
  · norm_num [envMidFail]

/-- Witness for the amended C4: a failing encode (or a missing context)
returns the incoming best from each of the three binary-search loops, and a
missing context or a failing fallback encode moves both ladder sweeps on to
the rest of their scales unchanged. -/
theorem probe_failure_local_witness :
    (findQGo envAllFail c0 1 (1/100) 1 (1/100) (999/1000) none).1 = none ∧
    (upGo envCtxOff c0 1 (2/5) 6 1 1 6 none).1 = none ∧
    (upGo envAllFail c0 1 (2/5) 6 1 1 6 none).1 = none ∧
    (fitBinGo envCtxOff c0 1 (2/5) 1 (1/10) 1 none).1 = none ∧
    (fitBinGo envAllFail c0 1 (2/5) 1 (1/10) 1 none).1 = none ∧
    (sweep envCtxOff c0 1 [19/20, 1/10] none).1 =
      (sweep envCtxOff c0 1 [1/10] none).1 ∧
    (sweep envAllFail c0 1 [19/20, 1/10] none).1 =
      (sweep envAllFail c0 1 [1/10] none).1 ∧
    (fitFallback envCtxOff c0 (2/5) [1/4, 1/10] none).1 =
      (fitFallback envCtxOff c0 (2/5) [1/10] none).1 ∧
    (fitFallback envAllFail c0 (2/5) [1/4, 1/10] none).1 =
      (fitFallback envAllFail c0 (2/5) [1/10] none).1 :=
  ⟨(probe_failure_local envAllFail c0 1 (1/100) (2/5) 6 0 (1/100) (999/1000)
      none none (19/20) [] none none).1 rfl,
   (probe_failure_local envCtxOff c0 1 (1/100) (2/5) 6 0 1 6 none none
      (19/20) [] none none).2.1 rfl,
   (probe_failure_local envAllFail c0 1 (1/100) (2/5) 6 0 1 6 none none
      (19/20) [] none none).2.2.1 rfl rfl,
   (probe_failure_local envCtxOff c0 1 (1/100) (2/5) 6 0 (1/10) 1 none none
      (19/20) [] none none).2.2.2.1 rfl,
   (probe_failure_local envAllFail c0 1 (1/100) (2/5) 6 0 (1/10) 1 none none
      (19/20) [] none none).2.2.2.2.1 rfl rfl,
   (probe_failure_local envCtxOff c0 1 (1/100) (2/5) 6 0 (1/10) 1 none none
      (19/20) [1/10] none none).2.2.2.2.2.1 rfl,
   (probe_failure_local envAllFail c0 1 (1/100) (2/5) 6 0 (1/10) 1 none none
      (19/20) [1/10] none none).2.2.2.2.2.2.1 rfl
     (findQuality_allFail (scaledCanvas c0 (19/20)) 1 (1/100) (999/1000) 12) rfl,
   (probe_failure_local envCtxOff c0 1 (1/100) (2/5) 6 0 (1/10) 1 none none
      (1/4) [1/10] none none).2.2.2.2.2.2.2.1 rfl,
   (probe_failure_local envAllFail c0 1 (1/100) (2/5) 6 0 (1/10) 1 none none
      (1/4) [1/10] none none).2.2.2.2.2.2.2.2 rfl rfl⟩

/-- C7: in by-quality-and-size mode the user's upscale toggle has no
influence — the dispatch passes `allowUpscale = true` to the fixed-quality
fit unconditionally. -/
theorem both_mode_ignores_upscale_toggle (env : Env) (c : Canvas) (qp ms : ℚ)
    (au au' : Bool) :
    convertOne env c Mode.both qp ms au = convertOne env c Mode.both qp ms au' ∧
    convertOne env c Mode.both qp ms au =
      fitToSizeWithFixedQuality env c (max 1 ms) (clampQ qp) true :=
  ⟨rfl, rfl⟩

/-- C9: for an in-range quality percentage, by-quality mode performs exactly
one encode probe, at the user fraction on the unresampled canvas, and auto
mode exactly one probe at quality 0.9; the results carry that quality at
scale 1. -/
theorem single_probe_modes (env : Env) (c : Canvas) (qp ms : ℚ) (au : Bool)
    (h1 : 1 ≤ qp) (h2 : qp ≤ 100) :
    ((convertOne env c Mode.quality qp ms au).2 =
        [Ev.enc c (qp/100) (env.encode c (qp/100))] ∧
      (convertOne env c Mode.quality qp ms au).1 =
        (match env.encode c (qp/100) with
         | some n => Except.ok ⟨n, qp/100, 1⟩
         | none => Except.error "Failed to convert to WEBP")) ∧
    ((convertOne env c Mode.auto qp ms au).2 =
        [Ev.enc c (9/10) (env.encode c (9/10))] ∧
      (convertOne env c Mode.auto qp ms au).1 =
        (match env.encode c (9/10) with
         | some n => Except.ok ⟨n, 9/10, 1⟩
         | none => Except.error "Failed to convert to WEBP")) := by
  have hclamp : clampQ qp = qp / 100 := by
    rw [clampQ, max_eq_left (by linarith), min_eq_left (by linarith)]
  constructor
  · simp only [convertOne, hclamp]
    rcases env.encode c (qp / 100) with _ | n <;> simp
  · simp only [convertOne]
    rcases env.encode c (9/10) with _ | n <;> simp

/-- Witness for C9 at quality percentage 50 with the constant encoder. -/
theorem single_probe_modes_witness :
    ((convertOne envFlat1 c0 Mode.quality 50 300 true).2 =
        [Ev.enc c0 (50/100) (envFlat1.encode c0 (50/100))] ∧
      (convertOne envFlat1 c0 Mode.quality 50 300 true).1 =
        (match envFlat1.encode c0 (50/100) with
         | some n => Except.ok ⟨n, 50/100, 1⟩
         | none => Except.error "Failed to convert to WEBP")) ∧
    ((convertOne envFlat1 c0 Mode.auto 50 300 true).2 =
        [Ev.enc c0 (9/10) (envFlat1.encode c0 (9/10))] ∧
      (convertOne envFlat1 c0 Mode.auto 50 300 true).1 =
        (match envFlat1.encode c0 (9/10) with
         | some n => Except.ok ⟨n, 9/10, 1⟩
         | none => Except.error "Failed to convert to WEBP")) :=
  single_probe_modes envFlat1 c0 50 300 true (by norm_num) (by norm_num)

/-- C10: in the capped modes the engine behaves exactly as if the cap were
1 KB whenever `maxSizeKB ≤ 1`, and the clamped quality fraction always lies
in `[0.01, 1]`. -/
theorem cap_and_quality_clamped (env : Env) (c : Canvas) (qp ms : ℚ) (au : Bool)
    (h : ms ≤ 1) :
    convertOne env c Mode.size qp ms au = convertOne env c Mode.size qp 1 au ∧
    convertOne env c Mode.both qp ms au = convertOne env c Mode.both qp 1 au ∧
    1/100 ≤ clampQ qp ∧ clampQ qp ≤ 1 := by
  have hmax : max (1:ℚ) ms = 1 := max_eq_left h
  refine ⟨?_, ?_, ?_, ?_⟩
  · simp only [convertOne, hmax, max_self]
  · simp only [convertOne, hmax, max_self]
  · rw [clampQ]
    exact le_min (le_trans (by norm_num) (le_max_right _ _)) (by norm_num)
  · rw [clampQ]
    exact min_le_right _ _

/-- Witness for C10 at `maxSizeKB = 0`. -/
theorem cap_and_quality_clamped_witness :
    convertOne envFlat1 c0 Mode.size 40 0 true =
      convertOne envFlat1 c0 Mode.size 40 1 true ∧
    convertOne envFlat1 c0 Mode.both 40 0 true =
      convertOne envFlat1 c0 Mode.both 40 1 true ∧
    1/100 ≤ clampQ 40 ∧ clampQ 40 ≤ 1 :=
  cap_and_quality_clamped envFlat1 c0 40 0 true (by norm_num)

/-! ## The fixed-quality fit never changes the quality -/

/-- Every encode probe of the upscale loop is at the fixed quality. -/
theorem upGo_encQ (env : Env) (src : Canvas) (t q ms : ℚ) :
    ∀ (i : Nat) (low high : ℚ) (best : Option SRes),
      (upGo env src t q ms i low high best).2.all (encQIs q) = true := by
  intro i
  induction i with
  | zero => intro low high best; rfl
  | succ i ih =>
    intro low high best
    rw [upGo]
    by_cases hctx : env.ctx2d (scaledCanvas src ((low + high) / 2)) = true
    · rw [if_pos hctx]
      rcases env.encode (scaledCanvas src ((low + high) / 2)) q with _ | n
      · simp [encQIs]
      · simp only
        split <;> split <;> simp [encQIs, ih]
    · rw [if_neg hctx]
      simp [encQIs]

/-- The upscale loop's result carries the fixed quality whenever the
incoming best does. -/
theorem upGo_resQ (env : Env) (src : Canvas) (t q ms : ℚ) :
    ∀ (i : Nat) (low high : ℚ) (best : Option SRes),
      (∀ b, best = some b → b.q = q) →
      ∀ r, (upGo env src t q ms i low high best).1 = some r → r.q = q := by
  intro i
  induction i with
  | zero => intro low high best hbest r hr; exact hbest r hr
  | succ i ih =>
    intro low high best hbest r hr
    rw [upGo] at hr
    by_cases hctx : env.ctx2d (scaledCanvas src ((low + high) / 2)) = true
    · rw [if_pos hctx] at hr
      rcases henc : env.encode (scaledCanvas src ((low + high) / 2)) q with _ | n
      · rw [henc] at hr
        exact hbest r hr
      · rw [henc] at hr
        simp only at hr
        by_cases hkb : ((n : ℚ) / 1024) ≤ t
        · simp only [if_pos hkb] at hr
          split at hr
          · cases hr; rfl
          · refine ih _ _ _ ?_ r hr
            intro b' hb'; cases hb'; rfl
        · simp only [if_neg hkb] at hr
          split at hr
          · exact hbest r hr
          · exact ih _ _ _ hbest r hr
    · rw [if_neg hctx] at hr
      exact hbest r hr

/-- Every encode probe of the upscale search is at the fixed quality. -/
theorem upscale_encQ (env : Env) (src : Canvas) (t q ms : ℚ) :
    (upscaleToTargetWithFixedQuality env src t q ms).2.all (encQIs q) = true := by
  rw [upscaleToTargetWithFixedQuality]
  simp [encQIs, upGo_encQ]

/-- Any result of the upscale search carries the fixed quality. -/
theorem upscale_resQ (env : Env) (src : Canvas) (t q ms : ℚ) (r : SRes)
    (h : (upscaleToTargetWithFixedQuality env src t q ms).1 = some r) : r.q = q :=
  upGo_resQ env src t q ms 12 1 ms none (by simp) r h

/-- Every encode probe of the fit's scale binary search is at the fixed
quality. -/
theorem fitBinGo_encQ (env : Env) (src : Canvas) (t q : ℚ) :
    ∀ (i : Nat) (low high : ℚ) (best : Option SRes),
      (fitBinGo env src t q i low high best).2.all (encQIs q) = true := by
  intro i
  induction i with
  | zero => intro low high best; rfl
  | succ i ih =>
    intro low high best
    rw [fitBinGo]
    by_cases hctx : env.ctx2d (scaledCanvas src ((low + high) / 2)) = true
    · rw [if_pos hctx]
      rcases env.encode (scaledCanvas src ((low + high) / 2)) q with _ | n
      · simp [encQIs]
      · simp only
        split <;> split <;> simp [encQIs, ih]
    · rw [if_neg hctx]
      simp [encQIs]

/-- The fit's scale binary search result carries the fixed quality whenever
the incoming best does. -/
theorem fitBinGo_resQ (env : Env) (src : Canvas) (t q : ℚ) :
    ∀ (i : Nat) (low high : ℚ) (best : Option SRes),
      (∀ b, best = some b → b.q = q) →
      ∀ r, (fitBinGo env src t q i low high best).1 = some r → r.q = q := by
  intro i
  induction i with
  | zero => intro low high best hbest r hr; exact hbest r hr
  | succ i ih =>
    intro low high best hbest r hr
    rw [fitBinGo] at hr
    by_cases hctx : env.ctx2d (scaledCanvas src ((low + high) / 2)) = true
    · rw [if_pos hctx] at hr
      rcases henc : env.encode (scaledCanvas src ((low + high) / 2)) q with _ | n
      · rw [henc] at hr
        exact hbest r hr
      · rw [henc] at hr
        simp only at hr
        by_cases hkb : ((n : ℚ) / 1024) ≤ t
        · simp only [if_pos hkb] at hr
          split at hr
          · cases hr; rfl
          · refine ih _ _ _ ?_ r hr
            intro b' hb'; cases hb'; rfl
        · simp only [if_neg hkb] at hr
          split at hr
          · exact hbest r hr
          · exact ih _ _ _ hbest r hr
    · rw [if_neg hctx] at hr
      exact hbest r hr

/-- Every encode probe of the fit's coarse fallback sweep is at the fixed
quality. -/
theorem fitFallback_encQ (env : Env) (src : Canvas) (q : ℚ) :
    ∀ (l : List ℚ) (fb : Option SRes),
      (fitFallback env src q l fb).2.all (encQIs q) = true := by
  intro l
  induction l with
  | nil => intro fb; rfl
  | cons s rest ih =>
    intro fb
    rw [fitFallback]
    by_cases hctx : env.ctx2d (scaledCanvas src s) = true
    · rw [if_pos hctx]
      simp [encQIs, ih]
    · rw [if_neg hctx]
      simp [encQIs, ih]

/-- The fit's coarse fallback result carries the fixed quality whenever the
incoming fallback does. -/
theorem fitFallback_resQ (env : Env) (src : Canvas) (q : ℚ) :
    ∀ (l : List ℚ) (fb : Option SRes),
      (∀ f, fb = some f → f.q = q) →
      ∀ r, (fitFallback env src q l fb).1 = some r → r.q = q := by
  intro l
  induction l with
  | nil => intro fb hfb r hr; exact hfb r hr
  | cons s rest ih =>
    intro fb hfb r hr
    rw [fitFallback] at hr
    by_cases hctx : env.ctx2d (scaledCanvas src s) = true
    · rw [if_pos hctx] at hr
      simp only at hr
      rcases henc : env.encode (scaledCanvas src s) q with _ | n
      · rw [henc] at hr
        exact ih _ hfb r hr
      · rw [henc] at hr
        rcases fb with _ | f
        · simp only at hr
          refine ih _ ?_ r hr
          intro f' hf'; cases hf'; rfl
        · simp only at hr
          by_cases hlt : n < f.size
          · rw [if_pos hlt] at hr
            refine ih _ ?_ r hr
            intro f' hf'; cases hf'; rfl
          · rw [if_neg hlt] at hr
            refine ih _ ?_ r hr
            intro f' hf'; cases hf'; exact hfb f rfl
    · rw [if_neg hctx] at hr
      simp only at hr
      exact ih _ hfb r hr

/-- C6: for any single call of the fixed-quality fit, every encode probe it
performs is at the fixed quality, and a successful result carries exactly
that quality — only the scale varies. -/
theorem fit_quality_fixed (env : Env) (src : Canvas) (t q : ℚ) (au : Bool) :
    ((fitToSizeWithFixedQuality env src t q au).2.all (encQIs q) = true) ∧
    resQIs q (fitToSizeWithFixedQuality env src t q au).1 = true := by
  rw [fitToSizeWithFixedQuality]
  rcases henc : env.encode src q with _ | n
  · simp [encQIs, resQIs]
  · simp only
    by_cases hkb : ((n : ℚ) / 1024) ≤ t
    · rw [if_pos hkb]
      by_cases hau : au = true
      · subst hau
        rw [if_pos rfl]
        rcases hup : (upscaleToTargetWithFixedQuality env src t q).1 with _ | u
        · have h1 := upscale_encQ env src t q 6
          simp [encQIs, resQIs, h1]
        · have h1 := upscale_encQ env src t q 6
          have h2 := upscale_resQ env src t q 6 u hup
          simp [encQIs, resQIs, h1, h2]
      · rw [if_neg hau]
        simp [encQIs, resQIs]
    · rw [if_neg hkb]
      rcases hbin : (fitBinGo env src t q 8 (1/10) 1 none).1 with _ | b
      · simp only
        rcases hfbl : (fitFallback env src q [1/4, 1/5, 3/20, 3/25, 1/10] none).1 with _ | f
        · have h1 := fitBinGo_encQ env src t q 8 (1/10) 1 none
          have h2 := fitFallback_encQ env src q [1/4, 1/5, 3/20, 3/25, 1/10] none
          simp [encQIs, resQIs] at h1 h2 ⊢
          exact ⟨h1, h2⟩
        · have h1 := fitBinGo_encQ env src t q 8 (1/10) 1 none
          have h2 := fitFallback_encQ env src q [1/4, 1/5, 3/20, 3/25, 1/10] none
          have h3 := fitFallback_resQ env src q [1/4, 1/5, 3/20, 3/25, 1/10] none
            (by simp) f hfbl
          simp [encQIs, resQIs, h3] at h1 h2 ⊢
          exact ⟨h1, h2⟩
      · have h1 := fitBinGo_encQ env src t q 8 (1/10) 1 none
        have h2 := fitBinGo_resQ env src t q 8 (1/10) 1 none (by simp) b hbin
        simp [encQIs, resQIs, h2] at h1 ⊢
        exact h1

/-! ## Where the upscale routine can be entered -/

/-- Value of `noUp` on an empty trace. -/
theorem noUp_nil : noUp [] = true := rfl

/-- Value of `noUp` across a cons. -/
theorem noUp_cons (e : Ev) (l : List Ev) :
    noUp (e :: l) = (!e.isUp && noUp l) := rfl

/-- Value of `noUp` across an append. -/
theorem noUp_append (l1 l2 : List Ev) :
    noUp (l1 ++ l2) = (noUp l1 && noUp l2) := by
  simp [noUp]

/-- A trace with no upscale entry contains no `Ev.up` event. -/
theorem noUp_not_mem (l : List Ev) (h : noUp l = true) (c : Canvas) (t q : ℚ) :
    Ev.up c t q ∉ l := by
  intro hmem
  have := List.all_eq_true.mp h _ hmem
  simp [Ev.isUp] at this

/-- The quality-search loop never enters the upscale routine. -/
theorem findQGo_noUp (env : Env) (c : Canvas) (t minQ : ℚ) :
    ∀ (i : Nat) (low high : ℚ) (best : Option QRes),
      noUp (findQGo env c t minQ i low high best).2 = true := by
  intro i
  induction i with
  | zero => intro low high best; rfl
  | succ i ih =>
    intro low high best
    rw [findQGo]
    rcases env.encode c ((low + high) / 2) with _ | n
    · rfl
    · simp only
      split <;> split <;> simp [noUp_cons, noUp_nil, Ev.isUp, ih]

/-- The quality search never enters the upscale routine. -/
theorem findQuality_noUp (env : Env) (c : Canvas) (t minQ maxQ : ℚ)
    (iters : Nat) :
    noUp (findQualityForTargetKB env c t minQ maxQ iters).2 = true :=
  findQGo_noUp env c t minQ iters minQ maxQ none

/-- The upscale loop body records no further upscale entry. -/
theorem upGo_noUp (env : Env) (src : Canvas) (t q ms : ℚ) :
    ∀ (i : Nat) (low high : ℚ) (best : Option SRes),
      noUp (upGo env src t q ms i low high best).2 = true := by
  intro i
  induction i with
  | zero => intro low high best; rfl
  | succ i ih =>
    intro low high best
    rw [upGo]
    by_cases hctx : env.ctx2d (scaledCanvas src ((low + high) / 2)) = true
    · rw [if_pos hctx]
      rcases env.encode (scaledCanvas src ((low + high) / 2)) q with _ | n
      · rfl
      · simp only
        split <;> split <;> simp [noUp_cons, noUp_nil, Ev.isUp, ih]
    · rw [if_neg hctx]
      rfl

/-- The fit's scale binary search never enters the upscale routine. -/
theorem fitBinGo_noUp (env : Env) (src : Canvas) (t q : ℚ) :
    ∀ (i : Nat) (low high : ℚ) (best : Option SRes),
      noUp (fitBinGo env src t q i low high best).2 = true := by
  intro i
  induction i with
  | zero => intro low high best; rfl
  | succ i ih =>
    intro low high best
    rw [fitBinGo]
    by_cases hctx : env.ctx2d (scaledCanvas src ((low + high) / 2)) = true
    · rw [if_pos hctx]
      rcases env.encode (scaledCanvas src ((low + high) / 2)) q with _ | n
      · rfl
      · simp only
        split <;> split <;> simp [noUp_cons, noUp_nil, Ev.isUp, ih]
    · rw [if_neg hctx]
      rfl

/-- The fit's coarse fallback sweep never enters the upscale routine. -/
theorem fitFallback_noUp (env : Env) (src : Canvas) (q : ℚ) :
    ∀ (l : List ℚ) (fb : Option SRes),
      noUp (fitFallback env src q l fb).2 = true := by
  intro l
  induction l with
  | nil => intro fb; rfl
  | cons s rest ih =>
    intro fb
    rw [fitFallback]
    by_cases hctx : env.ctx2d (scaledCanvas src s) = true
    · rw [if_pos hctx]
      simp [noUp_cons, Ev.isUp, ih]
    · rw [if_neg hctx]
      simp [noUp_cons, Ev.isUp, ih]

/-- The downscale sweep never enters the upscale routine. -/
theorem sweep_noUp (env : Env) (src : Canvas) (t : ℚ) :
    ∀ (l : List ℚ) (best : Option SRes),
      noUp (sweep env src t l best).2 = true := by
  intro l
  induction l with
  | nil =>
    intro best
    rcases best with _ | b
    · rcases henc : env.encode src (35/100) with _ | n <;>
        simp [sweep, henc, noUp_cons, noUp_nil, Ev.isUp]
    · rfl
  | cons s rest ih =>
    intro best
    rw [sweep]
    by_cases hctx : env.ctx2d (scaledCanvas src s) = true
    · simp only [if_pos hctx]
      rcases hatt : (findQualityForTargetKB env (scaledCanvas src s) t).1 with _ | a
      · simp only
        simp [noUp_cons, noUp_append, Ev.isUp, ih, findQuality_noUp]
      · simp only
        simp [noUp_cons, Ev.isUp, findQuality_noUp]
    · simp only [if_neg hctx]
      simp [noUp_cons, Ev.isUp, ih]

/-- An `Ev.up` event inside the upscale search's own trace is exactly its
entry event. -/
theorem up_mem_upscale (env : Env) (src : Canvas) (t q ms : ℚ)
    (c' : Canvas) (t' q' : ℚ)
    (h : Ev.up c' t' q' ∈ (upscaleToTargetWithFixedQuality env src t q ms).2) :
    c' = src ∧ t' = t ∧ q' = q := by
  rw [upscaleToTargetWithFixedQuality] at h
  simp only at h
  rcases List.mem_cons.mp h with heq | hmem
  · cases heq
    exact ⟨rfl, rfl, rfl⟩
  · exact absurd hmem
      (noUp_not_mem _ (upGo_noUp env src t q ms 12 1 ms none) c' t' q')

/-- An upscale entry during the fixed-quality fit can only happen with
upscaling allowed, against the same canvas, target and quality, and only
after the scale-1 probe at the fixed quality landed under the cap. -/
theorem up_mem_fit (env : Env) (src : Canvas) (t q : ℚ) (au : Bool)
    (c' : Canvas) (t' q' : ℚ)
    (h : Ev.up c' t' q' ∈ (fitToSizeWithFixedQuality env src t q au).2) :
    c' = src ∧ t' = t ∧ q' = q ∧ au = true ∧
      ∃ n, env.encode src q = some n ∧ (n : ℚ) / 1024 ≤ t := by
  rw [fitToSizeWithFixedQuality] at h
  rcases henc : env.encode src q with _ | n <;> rw [henc] at h
  · simp at h
  · simp only at h
    by_cases hkb : ((n : ℚ) / 1024) ≤ t
    · rw [if_pos hkb] at h
      by_cases hau : au = true
      · rw [if_pos hau] at h
        rcases hup : (upscaleToTargetWithFixedQuality env src t q).1 with _ | u <;>
          rw [hup] at h <;> simp only at h <;>
          rcases List.mem_cons.mp h with heq | hmem
        · cases heq
        · obtain ⟨h1, h2, h3⟩ := up_mem_upscale env src t q 6 c' t' q' hmem
          exact ⟨h1, h2, h3, hau, n, rfl, hkb⟩
        · cases heq
        · obtain ⟨h1, h2, h3⟩ := up_mem_upscale env src t q 6 c' t' q' hmem
          exact ⟨h1, h2, h3, hau, n, rfl, hkb⟩
      · rw [if_neg hau] at h
        simp at h
    · rw [if_neg hkb] at h
      rcases hbin : (fitBinGo env src t q 8 (1/10) 1 none).1 with _ | b <;>
        rw [hbin] at h <;> simp only at h
      · rcases hfbl : (fitFallback env src q [1/4, 1/5, 3/20, 3/25, 1/10] none).1
          with _ | f <;> rw [hfbl] at h <;> simp only at h <;>
          rcases List.mem_cons.mp h with heq | hmem
        · cases heq
        · rcases List.mem_append.mp hmem with hm | hm
          · exact absurd hm
              (noUp_not_mem _ (fitBinGo_noUp env src t q 8 (1/10) 1 none) c' t' q')
          · exact absurd hm
              (noUp_not_mem _
                (fitFallback_noUp env src q [1/4, 1/5, 3/20, 3/25, 1/10] none) c' t' q')
        · cases heq
        · rcases List.mem_append.mp hmem with hm | hm
          · exact absurd hm
              (noUp_not_mem _ (fitBinGo_noUp env src t q 8 (1/10) 1 none) c' t' q')
          · exact absurd hm
              (noUp_not_mem _
                (fitFallback_noUp env src q [1/4, 1/5, 3/20, 3/25, 1/10] none) c' t' q')
      · rcases List.mem_cons.mp h with heq | hmem
        · cases heq
        · exact absurd hmem
            (noUp_not_mem _ (fitBinGo_noUp env src t q 8 (1/10) 1 none) c' t' q')

/-- An upscale entry during the by-size conversion can only happen with the
toggle on, after a direct quality-search hit whose margin under the cap
exceeds `tolKB = 2` at quality ≥ 0.95, and at the clamped upscale quality. -/
theorem up_mem_convert (env : Env) (src : Canvas) (t : ℚ) (au : Bool)
    (c' : Canvas) (t' q' : ℚ)
    (h : Ev.up c' t' q' ∈ (convertToTargetSize env src t au).2) :
    c' = src ∧ t' = t ∧ au = true ∧
      ∃ d, (findQualityForTargetKB env src t).1 = some d ∧
        t - (d.size : ℚ) / 1024 > 2 ∧ d.q ≥ 95/100 ∧
        q' = min (999/1000) (max (95/100) d.q) := by
  rw [convertToTargetSize] at h
  simp only at h
  rcases hd : (findQualityForTargetKB env src t).1 with _ | d <;> rw [hd] at h <;>
    simp only at h
  · rcases List.mem_append.mp h with hm | hm
    · exact absurd hm
        (noUp_not_mem _ (findQuality_noUp env src t (1/100) (999/1000) 12) c' t' q')
    · exact absurd hm
        (noUp_not_mem _ (sweep_noUp env src t scalesLadder none) c' t' q')
  · by_cases hcond : (au = true ∧ t - (d.size : ℚ) / 1024 > 2 ∧ d.q ≥ 95/100)
    · rw [if_pos hcond] at h
      have hup : Ev.up c' t' q' ∈
          (upscaleToTargetWithFixedQuality env src t
            (min (999/1000) (max (95/100) d.q))).2 := by
        rcases hu : (upscaleToTargetWithFixedQuality env src t
            (min (999/1000) (max (95/100) d.q))).1 with _ | u <;>
          rw [hu] at h <;> simp only at h <;>
          rcases List.mem_append.mp h with hm | hm
        · exact absurd hm
            (noUp_not_mem _ (findQuality_noUp env src t (1/100) (999/1000) 12) c' t' q')
        · exact hm
        · exact absurd hm
            (noUp_not_mem _ (findQuality_noUp env src t (1/100) (999/1000) 12) c' t' q')
        · exact hm
      obtain ⟨h1, h2, h3⟩ := up_mem_upscale env src t _ 6 c' t' q' hup
      exact ⟨h1, h2, hcond.1, d, rfl, hcond.2.1, hcond.2.2, h3⟩
    · rw [if_neg hcond] at h
      exact absurd h
        (noUp_not_mem _ (findQuality_noUp env src t (1/100) (999/1000) 12) c' t' q')

/-- C5, amended.  Across every mode of the engine, the upscale routine is
entered in only two situations: in by-size mode, exactly under the claimed
precondition (toggle on, direct quality-search hit with margin > tolKB at
quality ≥ 0.95); in by-quality-and-size mode, whenever the scale-1 probe at
the (clamped) fixed quality lands under the cap — with no margin or
quality-threshold precondition, contrary to the claim as stated. -/
theorem upscale_call_characterized (env : Env) (c : Canvas) (mode : Mode)
    (qp ms : ℚ) (au : Bool) (c' : Canvas) (t' q' : ℚ)
    (h : Ev.up c' t' q' ∈ (convertOne env c mode qp ms au).2) :
    (mode = Mode.size ∧ au = true ∧ c' = c ∧ t' = max 1 ms ∧
      ∃ d, (findQualityForTargetKB env c (max 1 ms)).1 = some d ∧
        max 1 ms - (d.size : ℚ) / 1024 > 2 ∧ d.q ≥ 95/100 ∧
        q' = min (999/1000) (max (95/100) d.q)) ∨
    (mode = Mode.both ∧ c' = c ∧ t' = max 1 ms ∧ q' = clampQ qp ∧
      ∃ n, env.encode c (clampQ qp) = some n ∧ (n : ℚ) / 1024 ≤ max 1 ms) := by
  cases mode
  · simp only [convertOne] at h
    rcases henc : env.encode c (9/10) with _ | n <;> rw [henc] at h <;> simp at h
  · simp only [convertOne] at h
    rcases henc : env.encode c (clampQ qp) with _ | n <;> rw [henc] at h <;> simp at h
  · simp only [convertOne] at h
    obtain ⟨h1, h2, h3, d, hd⟩ := up_mem_convert env c (max 1 ms) au c' t' q' h
    exact Or.inl ⟨rfl, h3, h1, h2, d, hd⟩
  · simp only [convertOne] at h
    obtain ⟨h1, h2, h3, _, n, hn⟩ := up_mem_fit env c (max 1 ms) (clampQ qp) true c' t' q' h
    exact Or.inr ⟨rfl, h1, h2, h3, n, hn⟩

/-- With the constant 299 KB encoder, the by-quality-and-size run at quality
40 % and cap 300 KB enters the upscale routine after its first probe. -/
theorem up_mem_flat299 :
    Ev.up c0 300 (2/5) ∈ (convertOne envFlat299 c0 Mode.both 40 300 false).2 := by
  have hclamp : clampQ 40 = 2/5 := by
    rw [clampQ]
    norm_num [min_def, max_def]
  have hmax : max (1:ℚ) 300 = 300 := by norm_num
  have henc : envFlat299.encode c0 (2/5) = some 306176 := rfl
  simp only [convertOne, hclamp, hmax]
  rw [fitToSizeWithFixedQuality, henc]
  simp only
  rw [if_pos (show ((306176 : Nat) : ℚ) / 1024 ≤ 300 by norm_num)]
  rw [if_pos trivial]
  rw [upscaleToTargetWithFixedQuality]
  simp only
  rcases (upGo envFlat299 c0 300 (2/5) 6 12 1 6 none).1 with _ | u <;> simp

/-- Counterexample to C5 as stated: the by-quality-and-size mode enters the
upscale routine although the preceding probe's quality 0.4 is below 0.95 and
its margin under the cap (300 − 299 = 1 KB) does not exceed tolKB = 2. -/
theorem upscale_precondition_counterexample :
    Ev.up c0 300 (2/5) ∈ (convertOne envFlat299 c0 Mode.both 40 300 false).2 ∧
    ¬((2 : ℚ)/5 ≥ 95/100) ∧
    ¬((300 : ℚ) - ((306176 : Nat) : ℚ) / 1024 > 2) ∧
    envFlat299.encode c0 (2/5) = some 306176 :=
  ⟨up_mem_flat299, by norm_num, by norm_num, rfl⟩

/-- Witness for the amended C5, instantiated at the by-quality-and-size run
of the counterexample environment. -/
theorem upscale_call_characterized_witness :
    (Mode.both = Mode.size ∧ false = true ∧ c0 = c0 ∧ (300 : ℚ) = max 1 300 ∧
      ∃ d, (findQualityForTargetKB envFlat299 c0 (max 1 300)).1 = some d ∧
        max 1 300 - (d.size : ℚ) / 1024 > 2 ∧ d.q ≥ 95/100 ∧
        (2 : ℚ)/5 = min (999/1000) (max (95/100) d.q)) ∨
    (Mode.both = Mode.both ∧ c0 = c0 ∧ (300 : ℚ) = max 1 300 ∧
      (2 : ℚ)/5 = clampQ 40 ∧
      ∃ n, envFlat299.encode c0 (clampQ 40) = some n ∧
        (n : ℚ) / 1024 ≤ max 1 300) :=
  upscale_call_characterized envFlat299 c0 Mode.both 40 300 false c0 300 (2/5)
    up_mem_flat299

end Pixify
